import Mathlib

/-!
Shallow embedding of `src/icp_rust_boilerplate_backend/src/lib.rs`
(a quiz/poll canister over `ic_stable_structures`).

Modelling conventions:
* `HashMap<String, u32>` (the per-choice tally) is an association list
  with replace-on-insert semantics; statements about it go through
  `lookupA`, so list order never matters.
* `StableBTreeMap<u64, Quiz, _>` is an association list kept in
  ascending key order by `storeInsert`.
* `u64`/`u32` arithmetic that can overflow carries an explicit
  `% 2 ^ 64` / `% 2 ^ 32`.
* `time()` and `caller()` are passed in as explicit `now`/`caller`
  arguments.
* A Rust `panic!`/`assert!`/`expect` is the `Res.trap` outcome; the
  canister state is rolled back (the pre-call state is returned), which
  in this code is also textually true since every trap fires before any
  mutation.
* `ic_stable_structures::Cell::set` persists the new value and returns
  `Ok` of the *previous* value (its implementation is a `mem::replace`),
  so the `id` bound in `create_quiz` is the counter value read before
  the increment.
-/

set_option autoImplicit false

namespace IcpVote

/-- Tally map from choice label to vote count, modelling the Rust
`HashMap<String, u32>` field `answers`. -/
abbrev Tally := List (String × Nat)

/-- `HashMap::insert`: replace the value at key `k` when present,
otherwise add the entry. -/
def insertA : Tally → String → Nat → Tally
  | [], k, v => [(k, v)]
  | (a, b) :: rest, k, v =>
    if a = k then (k, v) :: rest else (a, b) :: insertA rest k v

/-- `HashMap::get`. -/
def lookupA : Tally → String → Option Nat
  | [], _ => none
  | (a, b) :: rest, k => if a = k then some b else lookupA rest k

/-- `if let Some(answer_count) = answers.get_mut(&k) \x7b *answer_count += 1 \x7d`:
increment the `u32` count at `k` when the entry exists; when it does not,
nothing happens (no entry is created). -/
def bumpA : Tally → String → Tally
  | [], _ => []
  | (a, b) :: rest, k =>
    if a = k then (a, (b + 1) % 2 ^ 32) :: rest else (a, b) :: bumpA rest k

/-- The `Quiz` record (struct `Quiz` in `lib.rs`). -/
structure Quiz where
  id : Nat
  author : String
  question : String
  options : List String
  answers : Tally
  created_at : Nat
  updated_at : Option Nat
  deriving Repr, DecidableEq

/-- The stable B-tree map `STORAGE : StableBTreeMap<u64, Quiz, _>`,
kept in ascending key order. -/
abbrev Store := List (Nat × Quiz)

/-- `StableBTreeMap::get`. -/
def storeGet : Store → Nat → Option Quiz
  | [], _ => none
  | (a, q) :: rest, k => if a = k then some q else storeGet rest k

/-- `StableBTreeMap::insert`: sorted insert, replacing an existing entry. -/
def storeInsert : Store → Nat → Quiz → Store
  | [], k, q => [(k, q)]
  | (a, b) :: rest, k, q =>
    if k < a then (k, q) :: (a, b) :: rest
    else if a = k then (k, q) :: rest
    else (a, b) :: storeInsert rest k q

/-- `StableBTreeMap::remove`: the removed entry, if any, and the rest. -/
def storeRemove : Store → Nat → Option Quiz × Store
  | [], _ => (none, [])
  | (a, b) :: rest, k =>
    if a = k then (some b, rest)
    else
      let r := storeRemove rest k
      (r.1, (a, b) :: r.2)

/-- Canister state: the durable `ID_COUNTER` cell (seeded at 0) and the
durable record map `STORAGE`. -/
structure State where
  counter : Nat
  store : Store
  deriving Repr, DecidableEq

/-- Fresh state: `IdCell::init(mem0, 0)` and an empty map. -/
def initState : State := { counter := 0, store := [] }

/-- `u64` modulus. -/
def U64 : Nat := 2 ^ 64

/-- Outcome of a call: a returned value, a typed `Err(Error::NotFound)`
result, or a Rust panic (canister trap). -/
inductive Res (α : Type) where
  | ok : α → Res α
  | err : String → Res α
  | trap : String → Res α
  deriving Repr, DecidableEq

/-- `QuizPayload` (struct with `validator` attributes). -/
structure QuizPayload where
  question : String
  options : List String
  deriving Repr, DecidableEq

/-- `payload.validate()`: `question` must have length ≥ 10 and `options`
must have length ≥ 2 (the `validator` crate's `length(min = ..)` rules). -/
def validatePayload (p : QuizPayload) : Bool :=
  decide (10 ≤ p.question.length) && decide (2 ≤ p.options.length)

/-- The tally-building loop shared by create and update:
`for option in &payload.options \x7b answers.insert(option.clone(), 0) \x7d`. -/
def zeroTally (options : List String) : Tally :=
  options.foldl (fun m o => insertA m o 0) []

/-- Helper `do_insert`: `STORAGE.insert(quiz.id, quiz.clone())`. -/
def do_insert (quiz : Quiz) (s : State) : State :=
  { s with store := storeInsert s.store quiz.id quiz }

/-- The record built by `create_quiz` (the `Quiz \x7b .. \x7d` literal). -/
def createdQuiz (caller : String) (now : Nat) (p : QuizPayload) (id : Nat) : Quiz :=
  { id := id, author := caller, question := p.question, options := p.options,
    answers := zeroTally p.options, created_at := now, updated_at := none }

/-- The record written back by `update_quiz` on success. -/
def updatedQuiz (q : Quiz) (now : Nat) (p : QuizPayload) : Quiz :=
  { q with question := p.question, options := p.options,
           answers := zeroTally p.options, updated_at := some now }

/-- The record written back by `answer_quiz` on success. -/
def answeredQuiz (q : Quiz) (now : Nat) (option : String) : Quiz :=
  { q with answers := bumpA q.answers option, updated_at := some now }

/-- The state after a successful `create_quiz`: incremented (wrapped)
counter, new record inserted at the previous counter value. -/
def createState (caller : String) (now : Nat) (p : QuizPayload) (s : State) : State :=
  { counter := (s.counter + 1) % U64,
    store := storeInsert s.store s.counter (createdQuiz caller now p s.counter) }

/-- `_get_quiz`. -/
def _get_quiz (id : Nat) (s : State) : Option Quiz :=
  storeGet s.store id

/-- `get_quiz`. -/
def get_quiz (id : Nat) (s : State) : Res Quiz :=
  match _get_quiz id s with
  | some message => .ok message
  | none => .err ("a quiz with id=" ++ toString id ++ " not found")

/-- `get_all_quiz`: collect the map entries; the index loop pushes the
second component of each entry in map order (every index is in bounds, so
its `unwrap` never fails), i.e. it computes `map Prod.snd`; an empty
result is reported as `Err(NotFound)`. -/
def get_all_quiz (s : State) : Res (List Quiz) :=
  let quizzes := s.store.map Prod.snd
  if 0 < quizzes.length then .ok quizzes
  else .err "There are currently no quiz"

/-- `create_quiz`. `payload.validate().expect(..)` traps on invalid
input; the id is allocated by `counter.set(current_value + 1)`, whose
`Ok` payload is the previous counter value (see the header comment), and
the quiz is persisted with `do_insert`. Returns `Option<Quiz>`. -/
def create_quiz (caller : String) (now : Nat) (payload : QuizPayload) (s : State) :
    Res (Option Quiz) × State :=
  if ¬ validatePayload payload then (.trap "Input validation failed", s)
  else
    let id := s.counter
    let s1 : State := { s with counter := (s.counter + 1) % U64 }
    let answers := zeroTally payload.options
    let quiz : Quiz :=
      { id := id, author := caller, question := payload.question,
        options := payload.options, answers := answers,
        created_at := now, updated_at := none }
    (.ok (some quiz), do_insert quiz s1)

/-- `update_quiz`: validate (trap on failure), look up the record
(`Err` when absent), `assert!` the caller is the author (trap when not),
then replace question/options, rebuild a zeroed tally, stamp
`updated_at`, and persist. -/
def update_quiz (caller : String) (now : Nat) (id : Nat) (payload : QuizPayload)
    (s : State) : Res Quiz × State :=
  if ¬ validatePayload payload then (.trap "Input validation failed", s)
  else
    match storeGet s.store id with
    | some quiz =>
      if ¬ (quiz.author = caller) then (.trap "Not author of quiz", s)
      else
        let quiz' : Quiz :=
          { quiz with question := payload.question, options := payload.options,
                      answers := zeroTally payload.options, updated_at := some now }
        (.ok quiz', do_insert quiz' s)
    | none =>
      (.err ("couldn\x27t update a quiz with id=" ++ toString id ++ ". quiz not found"), s)

/-- `delete_quiz`: `assert!(quiz.is_some(), "Quiz doesn\x27t exist")` and
`assert!(.. author ..)` trap, then the entry is removed; the `None` arm
of the remove is unreachable but kept from the source. -/
def delete_quiz (caller : String) (id : Nat) (s : State) : Res Quiz × State :=
  match storeGet s.store id with
  | none => (.trap "Quiz doesn\x27t exist", s)
  | some quiz =>
    if ¬ (quiz.author = caller) then (.trap "Not author of quiz", s)
    else
      match storeRemove s.store id with
      | (some quiz', rest) => (.ok quiz', { s with store := rest })
      | (none, _) =>
        (.err ("couldn\x27t delete a quiz with id=" ++ toString id ++ ". quiz not found."), s)

/-- `answer_quiz`: look up the record (`Err` when absent); when the
chosen option is a member of `options`, increment its tally entry (via
`get_mut`, a no-op when the key is missing), stamp `updated_at`, and
persist; otherwise return `Err` and change nothing. -/
def answer_quiz (now : Nat) (id : Nat) (option : String) (s : State) :
    Res Quiz × State :=
  match storeGet s.store id with
  | some quiz =>
    if option ∈ quiz.options then
      let quiz' : Quiz :=
        { quiz with answers := bumpA quiz.answers option, updated_at := some now }
      (.ok quiz', do_insert quiz' s)
    else
      (.err ("The option \x27" ++ option ++ "\x27 is not found for this quiz."), s)
  | none =>
    (.err ("couldn\x27t cast a quiz with id=" ++ toString id ++ ". quiz not found"), s)

/-! ## Operation traces

A request is one of the exposed calls with its implicit `caller`/`time()`
arguments made explicit; `stepOp` runs it against the state (a trapped
call leaves the state as it was — the canister rolls back on trap, and in
this code every trap in fact fires before any mutation) and records a
`created`/`deleted` event for a successful create/delete. -/

inductive Op where
  | create (caller : String) (now : Nat) (payload : QuizPayload)
  | update (caller : String) (now : Nat) (id : Nat) (payload : QuizPayload)
  | delete (caller : String) (id : Nat)
  | answer (now : Nat) (id : Nat) (option : String)
  | getOne (id : Nat)
  | getAll
  deriving Repr

inductive Event where
  | created (id : Nat)
  | deleted (id : Nat)
  deriving Repr, DecidableEq

def stepOp (s : State) (o : Op) : State × Option Event :=
  match o with
  | .create c n p =>
    let r := create_quiz c n p s
    (r.2, match r.1 with | .ok (some q) => some (.created q.id) | _ => none)
  | .update c n id p => ((update_quiz c n id p s).2, none)
  | .delete c id =>
    let r := delete_quiz c id s
    (r.2, match r.1 with | .ok _ => some (.deleted id) | _ => none)
  | .answer n id option => ((answer_quiz n id option s).2, none)
  | .getOne _ => (s, none)
  | .getAll => (s, none)

def runOps : State → List Op → State × List Event
  | s, [] => (s, [])
  | s, o :: rest =>
    let r := stepOp s o
    let r2 := runOps r.1 rest
    (r2.1, r.2.toList ++ r2.2)

/-- The ids of the successfully created records, in order. -/
def createdIds (evs : List Event) : List Nat :=
  evs.filterMap fun e => match e with | .created i => some i | .deleted _ => none

/-- How many creates in the trace succeed (create traps exactly on an
invalid payload, independently of the state). -/
def numCreates : List Op → Nat
  | [] => 0
  | o :: rest =>
    (match o with
     | .create _ _ p => if validatePayload p then 1 else 0
     | _ => 0) + numCreates rest

/-- Relation between an earlier and a later event: a deleted id is
strictly below every later created id. -/
def evRel : Event → Event → Prop := fun e1 e2 =>
  ∀ d c : Nat, e1 = Event.deleted d → e2 = Event.created c → d < c

/-- Every stored entry sits under its own id and below the counter. -/
def CtrInv (s : State) : Prop :=
  ∀ p ∈ s.store, p.2.id = p.1 ∧ p.1 < s.counter

/-- The tally keys of a record are exactly its option labels. -/
def TallyInvQ (q : Quiz) : Prop :=
  ∀ l : String, (lookupA q.answers l).isSome = true ↔ l ∈ q.options

/-- Every stored record satisfies `TallyInvQ`. -/
def TallyInv (s : State) : Prop :=
  ∀ p ∈ s.store, TallyInvQ p.2

/-- Every stored entry sits under its own id. -/
def KeyInv (s : State) : Prop := ∀ p ∈ s.store, p.2.id = p.1

/-! ## Concrete fixtures used in closed theorems and witnesses -/

def pColor : QuizPayload := { question := "Pick a color", options := ["red", "blue"] }

def pShort : QuizPayload := { question := "short", options := ["a", "b"] }

def pNew : QuizPayload := { question := "Pick a new color", options := ["c", "d"] }

/-- The record produced by the first create on a fresh state. -/
def qW : Quiz := createdQuiz "alice" 7 pColor 0

def sW1 : State := { counter := 1, store := [(0, qW)] }

def qBob : Quiz :=
  { id := 1, author := "bob", question := "What is best?", options := ["x", "y"],
    answers := [("x", 0), ("y", 0)], created_at := 3, updated_at := none }

def sBob : State := { counter := 2, store := [(1, qBob)] }

/-- A state whose store already holds a live record at the key the next
create will allocate (reachable only out of band, which is exactly the
situation the collision-avoidance requirement addresses). -/
def sOcc : State := { counter := 1, store := [(1, qBob)] }

def qCarol : Quiz := createdQuiz "carol" 9 pColor 1

def qBobNew : Quiz := updatedQuiz qBob 11 pNew

def sBobNew : State := { counter := 2, store := [(1, qBobNew)] }

/-- A record whose options legitimately contain the empty label (input
validation only constrains the question length and the option count). -/
def qEmptyOpt : Quiz :=
  { id := 1, author := "bob", question := "Pick the best", options := ["", "yes"],
    answers := [("", 0), ("yes", 0)], created_at := 5, updated_at := none }

def sEmptyOpt : State := { counter := 2, store := [(1, qEmptyOpt)] }

def qEmptyBumped : Quiz :=
  { qEmptyOpt with answers := [("", 1), ("yes", 0)], updated_at := some 9 }

def sEmptyBumped : State := { counter := 2, store := [(1, qEmptyBumped)] }

def opsW : List Op :=
  [Op.create "alice" 7 pColor, Op.delete "alice" 0, Op.create "alice" 8 pColor]

/-! ## Basic lemmas about the map embeddings -/

theorem lookupA_insertA (m : Tally) (k k' : String) (v : Nat) :
    lookupA (insertA m k v) k' = if k = k' then some v else lookupA m k' := by
  induction m with
  | nil => simp [insertA, lookupA]
  | cons p rest ih =>
    obtain ⟨a, b⟩ := p
    by_cases hak : a = k
    · rw [show insertA ((a, b) :: rest) k v = (k, v) :: rest from by
        simp [insertA, hak]]
      by_cases h : k = k' <;> simp [lookupA, h, hak]
    · rw [show insertA ((a, b) :: rest) k v = (a, b) :: insertA rest k v from by
        simp [insertA, hak]]
      by_cases h1 : a = k'
      · have hk : ¬ k = k' := fun he => hak (h1.trans he.symm)
        simp [lookupA, h1, hk]
      · simp [lookupA, h1, ih]

theorem lookupA_zeroFold (opts : List String) (m : Tally) (l : String) :
    lookupA (opts.foldl (fun acc o => insertA acc o 0) m) l =
      if l ∈ opts then some 0 else lookupA m l := by
  induction opts generalizing m with
  | nil => simp
  | cons a rest ih =>
    simp only [List.foldl_cons, ih, lookupA_insertA, List.mem_cons]
    by_cases hl : l ∈ rest
    · simp [hl]
    · by_cases hal : a = l
      · simp [hl, hal]
      · have hla : ¬ l = a := fun h => hal h.symm
        simp [hl, hal, hla]

theorem lookupA_zeroTally (opts : List String) (l : String) :
    lookupA (zeroTally opts) l = if l ∈ opts then some 0 else none := by
  simpa [zeroTally, lookupA] using lookupA_zeroFold opts [] l

theorem lookupA_bumpA_isSome (m : Tally) (k l : String) :
    (lookupA (bumpA m k) l).isSome = (lookupA m l).isSome := by
  induction m with
  | nil => simp [bumpA]
  | cons p rest ih =>
    obtain ⟨a, b⟩ := p
    simp only [bumpA]
    split_ifs with hak
    · simp only [lookupA]
      split_ifs <;> simp
    · simp only [lookupA]
      split_ifs <;> simp [ih]

theorem mem_storeInsert (st : Store) (k : Nat) (q : Quiz) (p : Nat × Quiz)
    (hp : p ∈ storeInsert st k q) : p = (k, q) ∨ p ∈ st := by
  induction st with
  | nil =>
    simp only [storeInsert, List.mem_singleton] at hp
    exact Or.inl hp
  | cons hd rest ih =>
    obtain ⟨a, b⟩ := hd
    simp only [storeInsert] at hp
    split_ifs at hp with h1 h2
    · rcases List.mem_cons.mp hp with h | h
      · exact Or.inl h
      · exact Or.inr h
    · rcases List.mem_cons.mp hp with h | h
      · exact Or.inl h
      · exact Or.inr (List.mem_cons_of_mem _ h)
    · rcases List.mem_cons.mp hp with h | h
      · exact Or.inr (h ▸ List.mem_cons_self _ _)
      · rcases ih h with h' | h'
        · exact Or.inl h'
        · exact Or.inr (List.mem_cons_of_mem _ h')

theorem mem_storeRemove (st : Store) (k : Nat) (p : Nat × Quiz)
    (hp : p ∈ (storeRemove st k).2) : p ∈ st := by
  induction st with
  | nil => simp [storeRemove] at hp
  | cons hd rest ih =>
    obtain ⟨a, b⟩ := hd
    simp only [storeRemove] at hp
    split_ifs at hp with h
    · exact List.mem_cons_of_mem _ hp
    · rcases List.mem_cons.mp hp with h2 | h2
      · exact h2 ▸ List.mem_cons_self _ _
      · exact List.mem_cons_of_mem _ (ih h2)

theorem storeGet_mem (st : Store) (k : Nat) (q : Quiz) (h : storeGet st k = some q) :
    (k, q) ∈ st := by
  induction st with
  | nil => simp [storeGet] at h
  | cons hd rest ih =>
    obtain ⟨a, b⟩ := hd
    simp only [storeGet] at h
    split_ifs at h with hak
    · obtain rfl : b = q := by injection h
      exact hak ▸ List.mem_cons_self _ _
    · exact List.mem_cons_of_mem _ (ih h)

theorem storeGet_storeInsert_self (st : Store) (k : Nat) (q : Quiz) :
    storeGet (storeInsert st k q) k = some q := by
  induction st with
  | nil => simp [storeInsert, storeGet]
  | cons hd rest ih =>
    obtain ⟨a, b⟩ := hd
    by_cases h1 : k < a
    · simp [storeInsert, h1, storeGet]
    · by_cases h2 : a = k
      · simp [storeInsert, h1, h2, storeGet]
      · simp [storeInsert, h1, h2, storeGet, ih]

theorem TallyInvQ_zeroTally (opts : List String) (l : String) :
    (lookupA (zeroTally opts) l).isSome = true ↔ l ∈ opts := by
  rw [lookupA_zeroTally]
  by_cases h : l ∈ opts <;> simp [h]

/-! ## Reduction of `stepOp` per operation -/

theorem runOps_cons (s : State) (o : Op) (rest : List Op) :
    runOps s (o :: rest) =
      ((runOps (stepOp s o).1 rest).1,
        (stepOp s o).2.toList ++ (runOps (stepOp s o).1 rest).2) := by
  simp [runOps]

theorem stepOp_create_valid (c : String) (n : Nat) (p : QuizPayload) (s : State)
    (hv : validatePayload p = true) :
    stepOp s (.create c n p) = (createState c n p s, some (.created s.counter)) := by
  simp [stepOp, create_quiz, hv, do_insert, createdQuiz, createState]

theorem stepOp_create_invalid (c : String) (n : Nat) (p : QuizPayload) (s : State)
    (hv : ¬ validatePayload p = true) :
    stepOp s (.create c n p) = (s, none) := by
  simp [stepOp, create_quiz, hv]

theorem stepOp_update_state (c : String) (n : Nat) (id : Nat) (p : QuizPayload)
    (s : State) :
    (stepOp s (.update c n id p)).2 = none ∧
    ((stepOp s (.update c n id p)).1 = s
     ∨ ∃ q : Quiz, storeGet s.store id = some q ∧
         (stepOp s (.update c n id p)).1 =
           { s with store := storeInsert s.store q.id (updatedQuiz q n p) }) := by
  refine ⟨rfl, ?_⟩
  by_cases hv : validatePayload p
  · cases hget : storeGet s.store id with
    | none => left; simp [stepOp, update_quiz, hv, hget]
    | some q =>
      by_cases ha : q.author = c
      · right
        exact ⟨q, rfl, by simp [stepOp, update_quiz, hv, hget, ha, do_insert, updatedQuiz]⟩
      · left; simp [stepOp, update_quiz, hv, hget, ha]
  · left; simp [stepOp, update_quiz, hv]

theorem stepOp_answer_state (n : Nat) (id : Nat) (l : String) (s : State) :
    (stepOp s (.answer n id l)).2 = none ∧
    ((stepOp s (.answer n id l)).1 = s
     ∨ ∃ q : Quiz, storeGet s.store id = some q ∧ l ∈ q.options ∧
         (stepOp s (.answer n id l)).1 =
           { s with store := storeInsert s.store q.id (answeredQuiz q n l) }) := by
  refine ⟨rfl, ?_⟩
  cases hget : storeGet s.store id with
  | none => left; simp [stepOp, answer_quiz, hget]
  | some q =>
    by_cases hm : l ∈ q.options
    · right
      exact ⟨q, rfl, hm, by simp [stepOp, answer_quiz, hget, hm, do_insert, answeredQuiz]⟩
    · left; simp [stepOp, answer_quiz, hget, hm]

theorem stepOp_delete_state (c : String) (id : Nat) (s : State) :
    stepOp s (.delete c id) = (s, none)
    ∨ (∃ q : Quiz, storeGet s.store id = some q ∧
        stepOp s (.delete c id) =
          ({ s with store := (storeRemove s.store id).2 }, some (.deleted id))) := by
  cases hget : storeGet s.store id with
  | none => left; simp [stepOp, delete_quiz, hget]
  | some q =>
    by_cases ha : q.author = c
    · cases hrem : storeRemove s.store id with
      | mk r1 r2 =>
        cases r1 with
        | some q' =>
          right
          exact ⟨q, rfl, by simp [stepOp, delete_quiz, hget, ha, hrem]⟩
        | none => left; simp [stepOp, delete_quiz, hget, ha, hrem]
    · left; simp [stepOp, delete_quiz, hget, ha]

theorem stepOp_getOne (id : Nat) (s : State) : stepOp s (.getOne id) = (s, none) := rfl

theorem stepOp_getAll (s : State) : stepOp s (.getAll) = (s, none) := rfl

/-! ## Invariants preserved along traces -/

theorem KeyInv_storeInsert (st : Store) (q : Quiz)
    (h : ∀ p ∈ st, p.2.id = p.1) :
    ∀ p ∈ storeInsert st q.id q, p.2.id = p.1 := by
  intro p hp
  rcases mem_storeInsert _ _ _ _ hp with h1 | h1
  · rw [h1]
  · exact h p h1

theorem TallyInv_storeInsert (st : Store) (q : Quiz)
    (h : ∀ p ∈ st, TallyInvQ p.2) (hq : TallyInvQ q) :
    ∀ p ∈ storeInsert st q.id q, TallyInvQ p.2 := by
  intro p hp
  rcases mem_storeInsert _ _ _ _ hp with h1 | h1
  · rw [h1]; exact hq
  · exact h p h1

theorem TallyInvQ_createdQuiz (c : String) (n : Nat) (p : QuizPayload) (id : Nat) :
    TallyInvQ (createdQuiz c n p id) := by
  intro l
  exact TallyInvQ_zeroTally p.options l

theorem TallyInvQ_updatedQuiz (q : Quiz) (n : Nat) (p : QuizPayload) :
    TallyInvQ (updatedQuiz q n p) := by
  intro l
  exact TallyInvQ_zeroTally p.options l

theorem TallyInvQ_answeredQuiz (q : Quiz) (n : Nat) (l : String)
    (hq : TallyInvQ q) : TallyInvQ (answeredQuiz q n l) := by
  intro l'
  show (lookupA (bumpA q.answers l) l').isSome = true ↔ l' ∈ q.options
  rw [lookupA_bumpA_isSome]
  exact hq l'

theorem KeyInv_step (s : State) (o : Op) (h : KeyInv s) : KeyInv (stepOp s o).1 := by
  cases o with
  | create c n p =>
    by_cases hv : validatePayload p
    · rw [stepOp_create_valid c n p s hv]
      exact KeyInv_storeInsert s.store (createdQuiz c n p s.counter) h
    · rw [stepOp_create_invalid c n p s hv]; exact h
  | update c n id p =>
    rcases (stepOp_update_state c n id p s).2 with heq | ⟨q, _, heq⟩
    · rw [heq]; exact h
    · rw [heq]
      exact KeyInv_storeInsert s.store (updatedQuiz q n p) h
  | delete c id =>
    rcases stepOp_delete_state c id s with heq | ⟨q, _, heq⟩
    · rw [heq]; exact h
    · rw [heq]
      intro p hp
      exact h p (mem_storeRemove _ _ _ hp)
  | answer n id l =>
    rcases (stepOp_answer_state n id l s).2 with heq | ⟨q, _, _, heq⟩
    · rw [heq]; exact h
    · rw [heq]
      exact KeyInv_storeInsert s.store (answeredQuiz q n l) h
  | getOne id => rw [stepOp_getOne]; exact h
  | getAll => rw [stepOp_getAll]; exact h

theorem KeyInv_runOps (ops : List Op) (s : State) (h : KeyInv s) :
    KeyInv (runOps s ops).1 := by
  induction ops generalizing s with
  | nil => exact h
  | cons o rest ih =>
    rw [runOps_cons]
    exact ih (stepOp s o).1 (KeyInv_step s o h)

theorem TallyInv_step (s : State) (o : Op) (h : TallyInv s) :
    TallyInv (stepOp s o).1 := by
  cases o with
  | create c n p =>
    by_cases hv : validatePayload p
    · rw [stepOp_create_valid c n p s hv]
      exact TallyInv_storeInsert s.store (createdQuiz c n p s.counter) h
        (TallyInvQ_createdQuiz c n p s.counter)
    · rw [stepOp_create_invalid c n p s hv]; exact h
  | update c n id p =>
    rcases (stepOp_update_state c n id p s).2 with heq | ⟨q, _, heq⟩
    · rw [heq]; exact h
    · rw [heq]
      exact TallyInv_storeInsert s.store (updatedQuiz q n p) h
        (TallyInvQ_updatedQuiz q n p)
  | delete c id =>
    rcases stepOp_delete_state c id s with heq | ⟨q, _, heq⟩
    · rw [heq]; exact h
    · rw [heq]
      intro p hp
      exact h p (mem_storeRemove _ _ _ hp)
  | answer n id l =>
    rcases (stepOp_answer_state n id l s).2 with heq | ⟨q, hget, _, heq⟩
    · rw [heq]; exact h
    · rw [heq]
      exact TallyInv_storeInsert s.store (answeredQuiz q n l) h
        (TallyInvQ_answeredQuiz q n l (h (id, q) (storeGet_mem s.store id q hget)))
  | getOne id => rw [stepOp_getOne]; exact h
  | getAll => rw [stepOp_getAll]; exact h

theorem TallyInv_runOps (ops : List Op) (s : State) (h : TallyInv s) :
    TallyInv (runOps s ops).1 := by
  induction ops generalizing s with
  | nil => exact h
  | cons o rest ih =>
    rw [runOps_cons]
    exact ih (stepOp s o).1 (TallyInv_step s o h)

/-! ## Created-id bookkeeping along traces -/

theorem createdIds_append (a b : List Event) :
    createdIds (a ++ b) = createdIds a ++ createdIds b := by
  simp [createdIds, List.filterMap_append]

theorem mem_createdIds_of_mem (evs : List Event) (e : Event) (c : Nat)
    (he : e ∈ evs) (hc : e = Event.created c) : c ∈ createdIds evs := by
  apply List.mem_filterMap.mpr
  refine ⟨e, he, ?_⟩
  rw [hc]

theorem createdIds_runOps_zero (ops : List Op) (s : State)
    (h : numCreates ops = 0) : createdIds (runOps s ops).2 = [] := by
  induction ops generalizing s with
  | nil => rfl
  | cons o rest ih =>
    rw [runOps_cons, createdIds_append]
    cases o with
    | create c n p =>
      by_cases hv : validatePayload p
      · exact absurd h (by simp [numCreates, hv])
      · have hrest : numCreates rest = 0 := by simpa [numCreates, hv] using h
        rw [stepOp_create_invalid c n p s hv]
        simpa [createdIds] using ih s hrest
    | update c n id p =>
      have hrest : numCreates rest = 0 := by simpa [numCreates] using h
      rw [(stepOp_update_state c n id p s).1]
      simpa [createdIds] using ih _ hrest
    | delete c id =>
      have hrest : numCreates rest = 0 := by simpa [numCreates] using h
      rcases stepOp_delete_state c id s with heq | ⟨q, hget, heq⟩
      · rw [heq]
        simpa [createdIds] using ih s hrest
      · rw [heq]
        simpa [createdIds] using ih _ hrest
    | answer n id l =>
      have hrest : numCreates rest = 0 := by simpa [numCreates] using h
      rw [(stepOp_answer_state n id l s).1]
      simpa [createdIds] using ih _ hrest
    | getOne id =>
      have hrest : numCreates rest = 0 := by simpa [numCreates] using h
      rw [stepOp_getOne]
      simpa [createdIds] using ih s hrest
    | getAll =>
      have hrest : numCreates rest = 0 := by simpa [numCreates] using h
      rw [stepOp_getAll]
      simpa [createdIds] using ih s hrest

theorem pairwise_evRel_of_no_created (evs : List Event)
    (h : createdIds evs = []) : List.Pairwise evRel evs := by
  induction evs with
  | nil => exact List.Pairwise.nil
  | cons e rest ih =>
    cases e with
    | created i => simp [createdIds] at h
    | deleted i =>
      have hrest : createdIds rest = [] := by simpa [createdIds] using h
      refine List.Pairwise.cons ?_ (ih hrest)
      intro e2 he2 d c h1 h2
      exfalso
      have hc : c ∈ createdIds rest := mem_createdIds_of_mem rest e2 c he2 h2
      rw [hrest] at hc
      exact List.not_mem_nil c hc

theorem runOps_created_spec (ops : List Op) (s : State)
    (hinv : CtrInv s) (hcnt : s.counter + numCreates ops ≤ U64) :
    createdIds (runOps s ops).2 = List.range' s.counter (numCreates ops)
    ∧ List.Pairwise evRel (runOps s ops).2 := by
  induction ops generalizing s with
  | nil => exact ⟨rfl, List.Pairwise.nil⟩
  | cons o rest ih =>
    rw [runOps_cons, createdIds_append]
    cases o with
    | create c n p =>
      by_cases hv : validatePayload p
      · have hnum : numCreates (Op.create c n p :: rest) = numCreates rest + 1 := by
          simp [numCreates, hv, Nat.add_comm]
        rw [hnum] at hcnt ⊢
        rw [stepOp_create_valid c n p s hv]
        by_cases hk : numCreates rest = 0
        · have h1 : createdIds (runOps (createState c n p s) rest).2 = [] :=
            createdIds_runOps_zero rest (createState c n p s) hk
          constructor
          · rw [h1, hk]
            simp [createdIds, List.range'_one]
          · simp only [Option.toList_some, List.singleton_append]
            refine List.Pairwise.cons ?_ (pairwise_evRel_of_no_created _ h1)
            intro e2 _ d c' h1' _
            exact absurd h1' (by simp)
        · have hone : 1 ≤ numCreates rest := Nat.one_le_iff_ne_zero.mpr hk
          have hlt : s.counter + 1 < U64 := by omega
          have hmod : (s.counter + 1) % U64 = s.counter + 1 := Nat.mod_eq_of_lt hlt
          have hinv' : CtrInv (createState c n p s) := by
            intro pr hpr
            have hpr' : pr ∈ storeInsert s.store s.counter (createdQuiz c n p s.counter) := hpr
            rcases mem_storeInsert _ _ _ _ hpr' with h1 | h1
            · rw [h1]
              refine ⟨rfl, ?_⟩
              show s.counter < (s.counter + 1) % U64
              rw [hmod]
              omega
            · obtain ⟨ha, hb⟩ := hinv pr h1
              refine ⟨ha, ?_⟩
              show pr.1 < (s.counter + 1) % U64
              rw [hmod]
              omega
          have hcnt' : (createState c n p s).counter + numCreates rest ≤ U64 := by
            show ((s.counter + 1) % U64) + numCreates rest ≤ U64
            rw [hmod]
            omega
          obtain ⟨ihc, ihp⟩ := ih _ hinv' hcnt'
          have hstart : (createState c n p s).counter = s.counter + 1 := hmod
          rw [hstart] at ihc
          constructor
          · rw [ihc, List.range'_succ]
            simp [createdIds]
          · simp only [Option.toList_some, List.singleton_append]
            refine List.Pairwise.cons ?_ ihp
            intro e2 _ d c' h1' _
            exact absurd h1' (by simp)
      · have hnum : numCreates (Op.create c n p :: rest) = numCreates rest := by
          simp [numCreates, hv]
        rw [hnum] at hcnt ⊢
        rw [stepOp_create_invalid c n p s hv]
        obtain ⟨ihc, ihp⟩ := ih s hinv hcnt
        exact ⟨by simpa [createdIds] using ihc, by simpa using ihp⟩
    | update c n id p =>
      have hnum : numCreates (Op.update c n id p :: rest) = numCreates rest := by
        simp [numCreates]
      rw [hnum] at hcnt ⊢
      rw [(stepOp_update_state c n id p s).1]
      rcases (stepOp_update_state c n id p s).2 with heq | ⟨q, hget, heq⟩
      · rw [heq]
        obtain ⟨ihc, ihp⟩ := ih s hinv hcnt
        exact ⟨by simpa [createdIds] using ihc, by simpa using ihp⟩
      · rw [heq]
        have hinv' : CtrInv { s with store := storeInsert s.store q.id (updatedQuiz q n p) } := by
          intro pr hpr
          rcases mem_storeInsert _ _ _ _ hpr with h1 | h1
          · obtain ⟨hqa, hqb⟩ := hinv (id, q) (storeGet_mem _ _ _ hget)
            rw [h1]
            refine ⟨rfl, ?_⟩
            show q.id < s.counter
            rw [show q.id = id from hqa]
            exact hqb
          · exact hinv pr h1
        obtain ⟨ihc, ihp⟩ := ih _ hinv' hcnt
        exact ⟨by simpa [createdIds] using ihc, by simpa using ihp⟩
    | delete c id =>
      have hnum : numCreates (Op.delete c id :: rest) = numCreates rest := by
        simp [numCreates]
      rw [hnum] at hcnt ⊢
      rcases stepOp_delete_state c id s with heq | ⟨q, hget, heq⟩
      · rw [heq]
        obtain ⟨ihc, ihp⟩ := ih s hinv hcnt
        exact ⟨by simpa [createdIds] using ihc, by simpa using ihp⟩
      · rw [heq]
        have hinv' : CtrInv { s with store := (storeRemove s.store id).2 } := by
          intro pr hpr
          exact hinv pr (mem_storeRemove _ _ _ hpr)
        obtain ⟨ihc, ihp⟩ := ih _ hinv' hcnt
        constructor
        · simpa [createdIds] using ihc
        · simp only [Option.toList_some, List.singleton_append]
          refine List.Pairwise.cons ?_ ihp
          intro e2 he2 d c' h1 h2
          have hdi : d = id := by
            injection h1 with h'
            exact h'.symm
          have hid : id < s.counter := (hinv (id, q) (storeGet_mem _ _ _ hget)).2
          have hc' : c' ∈ createdIds (runOps _ rest).2 :=
            mem_createdIds_of_mem _ e2 c' he2 h2
          rw [ihc] at hc'
          have hge : s.counter ≤ c' := (List.mem_range'_1.mp hc').1
          omega
    | answer n id l =>
      have hnum : numCreates (Op.answer n id l :: rest) = numCreates rest := by
        simp [numCreates]
      rw [hnum] at hcnt ⊢
      rw [(stepOp_answer_state n id l s).1]
      rcases (stepOp_answer_state n id l s).2 with heq | ⟨q, hget, _, heq⟩
      · rw [heq]
        obtain ⟨ihc, ihp⟩ := ih s hinv hcnt
        exact ⟨by simpa [createdIds] using ihc, by simpa using ihp⟩
      · rw [heq]
        have hinv' : CtrInv { s with store := storeInsert s.store q.id (answeredQuiz q n l) } := by
          intro pr hpr
          rcases mem_storeInsert _ _ _ _ hpr with h1 | h1
          · obtain ⟨hqa, hqb⟩ := hinv (id, q) (storeGet_mem _ _ _ hget)
            rw [h1]
            refine ⟨rfl, ?_⟩
            show q.id < s.counter
            rw [show q.id = id from hqa]
            exact hqb
          · exact hinv pr h1
        obtain ⟨ihc, ihp⟩ := ih _ hinv' hcnt
        exact ⟨by simpa [createdIds] using ihc, by simpa using ihp⟩
    | getOne id =>
      have hnum : numCreates (Op.getOne id :: rest) = numCreates rest := by
        simp [numCreates]
      rw [hnum] at hcnt ⊢
      rw [stepOp_getOne]
      obtain ⟨ihc, ihp⟩ := ih s hinv hcnt
      exact ⟨by simpa [createdIds] using ihc, by simpa using ihp⟩
    | getAll =>
      have hnum : numCreates (Op.getAll :: rest) = numCreates rest := by
        simp [numCreates]
      rw [hnum] at hcnt ⊢
      rw [stepOp_getAll]
      obtain ⟨ihc, ihp⟩ := ih s hinv hcnt
      exact ⟨by simpa [createdIds] using ihc, by simpa using ihp⟩

/-! ## Branch evaluation lemmas for the operations -/

theorem create_quiz_eq (caller : String) (now : Nat) (p : QuizPayload) (s : State)
    (hv : validatePayload p = true) :
    create_quiz caller now p s =
      (.ok (some (createdQuiz caller now p s.counter)),
       do_insert (createdQuiz caller now p s.counter)
         { s with counter := (s.counter + 1) % U64 }) := by
  simp [create_quiz, hv, createdQuiz]

theorem create_quiz_trap (caller : String) (now : Nat) (p : QuizPayload) (s : State)
    (hv : ¬ validatePayload p = true) :
    create_quiz caller now p s = (.trap "Input validation failed", s) := by
  simp [create_quiz, hv]

theorem update_quiz_eq (caller : String) (now : Nat) (id : Nat) (p : QuizPayload)
    (s : State) (q0 : Quiz) (hget : storeGet s.store id = some q0)
    (hv : validatePayload p = true) (ha : q0.author = caller) :
    update_quiz caller now id p s =
      (.ok (updatedQuiz q0 now p), do_insert (updatedQuiz q0 now p) s) := by
  simp [update_quiz, hget, hv, ha, updatedQuiz]

theorem update_quiz_trap_author (caller : String) (now : Nat) (id : Nat)
    (p : QuizPayload) (s : State) (q0 : Quiz) (hget : storeGet s.store id = some q0)
    (hv : validatePayload p = true) (ha : ¬ q0.author = caller) :
    update_quiz caller now id p s = (.trap "Not author of quiz", s) := by
  simp [update_quiz, hget, hv, ha]

theorem update_quiz_trap_validate (caller : String) (now : Nat) (id : Nat)
    (p : QuizPayload) (s : State) (hv : ¬ validatePayload p = true) :
    update_quiz caller now id p s = (.trap "Input validation failed", s) := by
  simp [update_quiz, hv]

/-! ## Claim theorems -/

/-- Claim C1, evaluated against the code: the spec requires every
request-level failure to come back as a typed error result, but the
implementation traps (panics) on each of them — `delete_quiz` on a
missing id (`assert!(quiz.is_some())`), `create_quiz`/`update_quiz` on a
failing payload validation (`expect`), and `update_quiz`/`delete_quiz`
when the caller is not the author (`assert!`). -/
theorem mutating_calls_trap_on_request_failures :
    delete_quiz "alice" 0 initState = (.trap "Quiz doesn\x27t exist", initState)
    ∧ create_quiz "alice" 7 pShort initState = (.trap "Input validation failed", initState)
    ∧ update_quiz "mallory" 9 1 pColor sBob = (.trap "Not author of quiz", sBob)
    ∧ delete_quiz "mallory" 1 sBob = (.trap "Not author of quiz", sBob) := by
  refine ⟨by decide, by decide, by decide, by decide⟩

/-- Claim C2, evaluated against the code: the allocator increments the
counter unconditionally (there is no scan past occupied keys), so from a
state whose store holds a live record at the counter value, `create_quiz`
returns that very id and silently overwrites the live record. -/
theorem create_reuses_occupied_id :
    storeGet sOcc.store sOcc.counter = some qBob
    ∧ create_quiz "carol" 9 pColor sOcc =
        (.ok (some qCarol), { counter := 2, store := [(1, qCarol)] })
    ∧ qCarol.id = 1
    ∧ storeGet (create_quiz "carol" 9 pColor sOcc).2.store 1 = some qCarol := by
  refine ⟨by decide, by decide, by decide, by decide⟩

/-- Claim C3, counterexample: an empty chosen label is *not* rejected
when the empty string is a member of `options` — the vote succeeds and
mutates the stored record, contradicting "empty labels get an
invalid-choice error and the record is unchanged". -/
theorem answer_quiz_accepts_member_empty_label :
    answer_quiz 9 1 "" sEmptyOpt = (.ok qEmptyBumped, sEmptyBumped)
    ∧ (answer_quiz 9 1 "" sEmptyOpt).2 ≠ sEmptyOpt := by
  refine ⟨by decide, by decide⟩

/-- Claim C3, amended: for every stored record and every label that is
not a member of its options, `answer_quiz` returns the invalid-choice
error and leaves the state (hence the stored record) completely
unchanged. (An empty label is rejected only by virtue of non-membership;
an empty string that is a member is a valid vote.) -/
theorem answer_quiz_rejects_nonmember_label (now id : Nat) (label : String)
    (s : State) (q : Quiz) (hget : storeGet s.store id = some q)
    (hmem : label ∉ q.options) :
    answer_quiz now id label s =
      (.err ("The option \x27" ++ label ++ "\x27 is not found for this quiz."), s) := by
  unfold answer_quiz
  rw [hget]
  simp [hmem]

theorem answer_quiz_rejects_nonmember_label_witness :
    storeGet sBob.store 1 = some qBob
    ∧ "z" ∉ qBob.options
    ∧ answer_quiz 4 1 "z" sBob =
        (.err ("The option \x27" ++ "z" ++ "\x27 is not found for this quiz."), sBob) :=
  ⟨by decide, by decide,
   answer_quiz_rejects_nonmember_label 4 1 "z" sBob qBob (by decide) (by decide)⟩

/-- Claim C4: a successful create returns (and persists) a record whose
tally maps exactly the payload options to 0, whose `created_at` is the
call time, and whose `updated_at` is absent. -/
theorem create_quiz_zero_tally_fresh_timestamps (caller : String) (now : Nat)
    (p : QuizPayload) (s s' : State) (q : Quiz)
    (h : create_quiz caller now p s = (.ok (some q), s')) :
    (∀ l : String, lookupA q.answers l = if l ∈ p.options then some 0 else none)
    ∧ q.created_at = now ∧ q.updated_at = none
    ∧ storeGet s'.store q.id = some q := by
  by_cases hv : validatePayload p
  · rw [create_quiz_eq caller now p s hv] at h
    simp only [Prod.mk.injEq, Res.ok.injEq, Option.some.injEq] at h
    obtain ⟨hq, hs⟩ := h
    subst hq
    subst hs
    refine ⟨fun l => lookupA_zeroTally p.options l, rfl, rfl, ?_⟩
    exact storeGet_storeInsert_self _ _ _
  · rw [create_quiz_trap caller now p s hv] at h
    simp at h

theorem create_quiz_zero_tally_fresh_timestamps_witness :
    create_quiz "alice" 7 pColor initState = (.ok (some qW), sW1)
    ∧ lookupA qW.answers "red" = (if "red" ∈ pColor.options then some 0 else none)
    ∧ qW.created_at = 7 ∧ qW.updated_at = none
    ∧ storeGet sW1.store qW.id = some qW :=
  ⟨by decide,
   (create_quiz_zero_tally_fresh_timestamps "alice" 7 pColor initState sW1 qW
     (by decide)).1 "red",
   (create_quiz_zero_tally_fresh_timestamps "alice" 7 pColor initState sW1 qW
     (by decide)).2.1,
   (create_quiz_zero_tally_fresh_timestamps "alice" 7 pColor initState sW1 qW
     (by decide)).2.2.1,
   (create_quiz_zero_tally_fresh_timestamps "alice" 7 pColor initState sW1 qW
     (by decide)).2.2.2⟩

/-- Claim C5: a successful edit replaces question and options, resets the
tally to zero over the new options (no carry-over), stamps `updated_at`,
keeps `id` and `created_at`, and persists the result. -/
theorem update_quiz_replaces_and_resets (caller : String) (now id : Nat)
    (p : QuizPayload) (s s' : State) (q0 q' : Quiz)
    (hget : storeGet s.store id = some q0)
    (h : update_quiz caller now id p s = (.ok q', s')) :
    q'.question = p.question ∧ q'.options = p.options
    ∧ (∀ l : String, lookupA q'.answers l = if l ∈ p.options then some 0 else none)
    ∧ q'.updated_at = some now
    ∧ q'.id = q0.id ∧ q'.created_at = q0.created_at
    ∧ storeGet s'.store q'.id = some q' := by
  by_cases hv : validatePayload p
  · by_cases ha : q0.author = caller
    · rw [update_quiz_eq caller now id p s q0 hget hv ha] at h
      simp only [Prod.mk.injEq, Res.ok.injEq] at h
      obtain ⟨hq, hs⟩ := h
      subst hq
      subst hs
      refine ⟨rfl, rfl, fun l => lookupA_zeroTally p.options l, rfl, rfl, rfl, ?_⟩
      exact storeGet_storeInsert_self _ _ _
    · rw [update_quiz_trap_author caller now id p s q0 hget hv ha] at h
      simp at h
  · rw [update_quiz_trap_validate caller now id p s hv] at h
    simp at h

theorem update_quiz_replaces_and_resets_witness :
    storeGet sBob.store 1 = some qBob
    ∧ update_quiz "bob" 11 1 pNew sBob = (.ok qBobNew, sBobNew)
    ∧ qBobNew.question = pNew.question ∧ qBobNew.options = pNew.options
    ∧ lookupA qBobNew.answers "c" = (if "c" ∈ pNew.options then some 0 else none)
    ∧ qBobNew.updated_at = some 11
    ∧ qBobNew.id = qBob.id ∧ qBobNew.created_at = qBob.created_at
    ∧ storeGet sBobNew.store qBobNew.id = some qBobNew :=
  ⟨by decide, by decide,
   (update_quiz_replaces_and_resets "bob" 11 1 pNew sBob sBobNew qBob qBobNew
     (by decide) (by decide)).1,
   (update_quiz_replaces_and_resets "bob" 11 1 pNew sBob sBobNew qBob qBobNew
     (by decide) (by decide)).2.1,
   (update_quiz_replaces_and_resets "bob" 11 1 pNew sBob sBobNew qBob qBobNew
     (by decide) (by decide)).2.2.1 "c",
   (update_quiz_replaces_and_resets "bob" 11 1 pNew sBob sBobNew qBob qBobNew
     (by decide) (by decide)).2.2.2.1,
   (update_quiz_replaces_and_resets "bob" 11 1 pNew sBob sBobNew qBob qBobNew
     (by decide) (by decide)).2.2.2.2.1,
   (update_quiz_replaces_and_resets "bob" 11 1 pNew sBob sBobNew qBob qBobNew
     (by decide) (by decide)).2.2.2.2.2.1,
   (update_quiz_replaces_and_resets "bob" 11 1 pNew sBob sBobNew qBob qBobNew
     (by decide) (by decide)).2.2.2.2.2.2⟩

/-- Claim C7, counterexample: on a fresh state (counter seeded at 0) the
first successful create returns the record with id 0, not 1 —
`Cell::set(current_value + 1)` persists the incremented counter but
returns the previous value. -/
theorem first_create_returns_id_zero_concrete :
    (create_quiz "alice" 7 pColor initState).1 = .ok (some qW)
    ∧ qW.id = 0 ∧ qW.id ≠ 1 := by
  refine ⟨by decide, by decide, by decide⟩

/-- Claim C7, amended: starting from the empty store with the durable
counter seeded at 0, the first successful create returns a record whose
id is 0. -/
theorem first_create_returns_id_zero (caller : String) (now : Nat) (p : QuizPayload)
    (q : Quiz) (s' : State)
    (h : create_quiz caller now p initState = (.ok (some q), s')) : q.id = 0 := by
  by_cases hv : validatePayload p
  · rw [create_quiz_eq caller now p initState hv] at h
    simp only [Prod.mk.injEq, Res.ok.injEq, Option.some.injEq] at h
    obtain ⟨hq, _⟩ := h
    rw [← hq]
    rfl
  · rw [create_quiz_trap caller now p initState hv] at h
    simp at h

theorem first_create_returns_id_zero_witness :
    create_quiz "alice" 7 pColor initState = (.ok (some qW), sW1) ∧ qW.id = 0 :=
  ⟨by decide, first_create_returns_id_zero "alice" 7 pColor qW sW1 (by decide)⟩

/-- Claim C8: listing an empty store yields the distinct "no records"
error outcome, and listing a non-empty store yields every live record
(in map order) as a success. -/
theorem get_all_quiz_empty_err_nonempty_ok (s : State) :
    (s.store = [] → get_all_quiz s = .err "There are currently no quiz")
    ∧ (s.store ≠ [] → get_all_quiz s = .ok (s.store.map Prod.snd)) := by
  constructor
  · intro h
    simp [get_all_quiz, h]
  · intro h
    have hlen : 0 < (s.store.map Prod.snd).length := by
      rw [List.length_map]
      exact List.length_pos.mpr h
    simp [get_all_quiz, hlen, h]

theorem get_all_quiz_empty_err_nonempty_ok_witness :
    get_all_quiz initState = .err "There are currently no quiz"
    ∧ get_all_quiz sBob = .ok (sBob.store.map Prod.snd) :=
  ⟨(get_all_quiz_empty_err_nonempty_ok initState).1 rfl,
   (get_all_quiz_empty_err_nonempty_ok sBob).2 (by decide)⟩

/-- Claim C6: along every operation trace from the initial state (with at
most `2 ^ 64` successful creates — the range of the u64 counter, which
never wraps before that), the ids returned by successful creates are
pairwise distinct, and once a record with some id has been deleted, no
later successful create ever returns that id. -/
theorem created_ids_distinct_and_not_reused (ops : List Op)
    (hcnt : numCreates ops ≤ U64) :
    (createdIds (runOps initState ops).2).Nodup
    ∧ List.Pairwise
        (fun e1 e2 => ∀ d c : Nat,
          e1 = Event.deleted d → e2 = Event.created c → d ≠ c)
        (runOps initState ops).2 := by
  obtain ⟨hc, hp⟩ := runOps_created_spec ops initState
    (fun pr hpr => absurd hpr (List.not_mem_nil pr))
    (by simpa [initState] using hcnt)
  refine ⟨?_, ?_⟩
  · rw [hc]
    exact List.nodup_range' _ _
  · exact hp.imp (fun hre d c h1 h2 => Nat.ne_of_lt (hre d c h1 h2))

theorem created_ids_distinct_and_not_reused_witness :
    numCreates opsW ≤ U64
    ∧ ((createdIds (runOps initState opsW).2).Nodup
       ∧ List.Pairwise
           (fun e1 e2 => ∀ d c : Nat,
             e1 = Event.deleted d → e2 = Event.created c → d ≠ c)
           (runOps initState opsW).2) :=
  ⟨by decide, created_ids_distinct_and_not_reused opsW (by decide)⟩

/-- Claim C9: in every state reachable by an operation trace from the
initial state, every stored record's tally keys are exactly its option
labels. -/
theorem tally_keys_match_options_reachable (ops : List Op) (p : Nat × Quiz)
    (hp : p ∈ (runOps initState ops).1.store) (l : String) :
    (lookupA p.2.answers l).isSome = true ↔ l ∈ p.2.options :=
  TallyInv_runOps ops initState (fun pr hpr => absurd hpr (List.not_mem_nil pr)) p hp l

theorem tally_keys_match_options_reachable_witness :
    (0, qW) ∈ (runOps initState [Op.create "alice" 7 pColor]).1.store
    ∧ ((lookupA (0, qW).2.answers "red").isSome = true ↔ "red" ∈ (0, qW).2.options) :=
  ⟨by decide,
   tally_keys_match_options_reachable [Op.create "alice" 7 pColor] (0, qW) (by decide) "red"⟩

/-- Claim C10: in every state reachable by an operation trace from the
initial state, every stored record sits under the map key equal to its
own id field. -/
theorem store_key_eq_record_id_reachable (ops : List Op) (p : Nat × Quiz)
    (hp : p ∈ (runOps initState ops).1.store) : p.2.id = p.1 :=
  KeyInv_runOps ops initState (fun pr hpr => absurd hpr (List.not_mem_nil pr)) p hp

theorem store_key_eq_record_id_reachable_witness :
    (0, qW) ∈ (runOps initState [Op.create "alice" 7 pColor]).1.store
    ∧ (0, qW).2.id = (0, qW).1 :=
  ⟨by decide,
   store_key_eq_record_id_reachable [Op.create "alice" 7 pColor] (0, qW) (by decide)⟩

end IcpVote
